import Mathlib

/-!
Shallow embedding of the bulk-upload pipeline of this repository:
the spreadsheet row normalizer and question converter (src/lib/excel-parser.ts),
the upload orchestrator (the upload service module), the data model
(src/lib/supabase.ts) and the page-level upload guard (src/app/page.tsx).
The external record store is modelled as an oracle assigning a response to
each write; every upload function returns the list of issued writes, the
list of emitted progress events, and the propagated result.
-/

set_option maxRecDepth 20000

deriving instance DecidableEq for Except

namespace BulkUpload

/-! ## String helpers mirroring the JavaScript string operations used -/

/-- Characters treated as whitespace by the JavaScript trim and regex \s class
(ASCII fragment, which is all the repository relies on). -/
def wsChar (c : Char) : Bool :=
  c == ' ' || c == '\t' || c == '\n' || c == '\r'

/-- Horizontal whitespace: the character class of the per-line trim regex. -/
def tabSpace (c : Char) : Bool :=
  c == '\t' || c == ' '

/-- Drop characters satisfying p from both ends of a character list. -/
def listTrimWith (p : Char → Bool) (l : List Char) : List Char :=
  ((l.dropWhile p).reverse.dropWhile p).reverse

/-- JavaScript String.trim (ASCII fragment). -/
def jsTrim (s : String) : String :=
  ⟨listTrimWith wsChar s.data⟩

/-- JavaScript String.toLowerCase (ASCII fragment). -/
def jsToLower (s : String) : String :=
  ⟨s.data.map Char.toLower⟩

/-- JavaScript String.toUpperCase (ASCII fragment). -/
def jsToUpper (s : String) : String :=
  ⟨s.data.map Char.toUpper⟩

/-- First-occurrence string replacement: JavaScript String.replace with a
string pattern replaces only the first occurrence of the pattern. -/
def replaceFirstList (pat rep : List Char) : List Char → List Char
  | [] => if List.isPrefixOf pat [] then rep else []
  | c :: rest =>
    if List.isPrefixOf pat (c :: rest) then rep ++ List.drop pat.length (c :: rest)
    else c :: replaceFirstList pat rep rest

/-- String-level wrapper of the first-occurrence replacement. -/
def jsReplaceFirst (s pat rep : String) : String :=
  ⟨replaceFirstList pat.data rep.data s.data⟩

/-! ## Row Normalizer (src/lib/excel-parser.ts) -/

/-- A decoded spreadsheet row: string keys to string cell values, in header
order, as produced by the external cell-decoding collaborator. -/
abbrev Row := List (String × String)

/-- ParsedQuestion record of excel-parser.ts. -/
structure ParsedQuestion where
  reference_id : String
  tag : String
  difficulty : String
  instructions : String
  question_text : String
  answer_a : String
  answer_b : String
  answer_c : String
  answer_d : String
  correct_answer : String
  explanation : String
deriving DecidableEq, Repr

/-- normalizeKey of parseExcelFile: lower-case and delete underscores and
whitespace (the /[_\s]/g regex). -/
def normalizeKey (s : String) : String :=
  ⟨(jsToLower s).data.filter (fun c => !(c == '_' || wsChar c))⟩

/-- Lookup in the normalized-key map built by getValue: the JavaScript object
assignment loop makes the last row key with a given normalized form win. -/
def lookupNorm (row : Row) (nkey : String) : Option String :=
  ((row.filter (fun kv => normalizeKey kv.1 == nkey)).getLast?).map Prod.snd

/-- Value of one candidate header in a row, empty string when absent. -/
def getValueKey (row : Row) (key : String) : String :=
  match lookupNorm row (normalizeKey key) with
  | some v => v
  | none => ""

/-- getValue of parseExcelFile: first candidate header whose value is truthy
(non-empty), primary first, then the fallbacks, else empty string. -/
def getValueGo (row : Row) : List String → String
  | [] => ""
  | k :: rest => if getValueKey row k == "" then getValueGo row rest else getValueKey row k

/-- getValue of parseExcelFile. -/
def getValue (row : Row) (primary : String) (fallbacks : List String) : String :=
  getValueGo row (primary :: fallbacks)

/-- Split a character list at newline characters (JavaScript multiline regex
line structure). -/
def splitLines : List Char → List (List Char)
  | [] => [[]]
  | c :: rest =>
    let r := splitLines rest
    if c = '\n' then [] :: r
    else (c :: r.headD []) :: r.tail

/-- Rejoin line fragments with newline characters. -/
def joinLines : List (List Char) → List Char
  | [] => []
  | [l] => l
  | l :: ls => l ++ '\n' :: joinLines ls

/-- Trim horizontal whitespace from both ends of one line. -/
def trimLine (l : List Char) : List Char :=
  listTrimWith tabSpace l

/-- trimPreserveLinebreaks of parseExcelFile: the regex
^[\t ]+|[\t ]+$ with flags gm removes runs of tabs and spaces at the start
and at the end of every line while keeping the line breaks. -/
def trimPreserveLinebreaks (s : String) : String :=
  ⟨joinLines ((splitLines s.data).map trimLine)⟩

/-- The pattern of the /\\frac/g regex, as characters. -/
def fracPat : List Char := ['\\', 'f', 'r', 'a', 'c']

/-- The replacement \dfrac, as characters. -/
def dfracChars : List Char := ['\\', 'd', 'f', 'r', 'a', 'c']

/-- Left-to-right global replacement scanner for the /\\frac/g regex, with a
fuel argument that is always instantiated with the list length. -/
def convertFracAuxF : Nat → List Char → List Char
  | 0, l => l
  | _ + 1, [] => []
  | fuel + 1, c :: rest =>
    if List.isPrefixOf fracPat (c :: rest) then
      dfracChars ++ convertFracAuxF fuel (rest.drop 4)
    else
      c :: convertFracAuxF fuel rest

/-- convertFracToDisplayFrac of parseExcelFile: replace every occurrence of
the \frac token with \dfrac. -/
def convertFracToDisplayFrac (s : String) : String :=
  ⟨convertFracAuxF s.data.length s.data⟩

/-- The free-text post-processing applied to instructions, question text,
answers and explanation: per-line trim, then the \frac replacement. -/
def normText (s : String) : String :=
  convertFracToDisplayFrac (trimPreserveLinebreaks s)

/-- JavaScript x or-else d for strings: d when x is empty (falsy). -/
def orDefault (s d : String) : String :=
  if s == "" then d else s

/-- The difficulty normalization chain of parseExcelFile:
toLowerCase, trim, then replace of the first occurrence of hard by intense. -/
def normalizeDifficulty (s : String) : String :=
  jsReplaceFirst (jsTrim (jsToLower s)) "hard" "intense"

/-- The resolved question identifier of a row, with the fallback headers used
by parseExcelFile. -/
def resolveQuestionId (row : Row) : String :=
  getValue row "question_id" ["reference_id", "question id", "reference id"]

/-- The loop body of parseExcelFile building one ParsedQuestion from a row. -/
def parseRow (row : Row) : ParsedQuestion where
  reference_id := jsTrim (resolveQuestionId row)
  tag := jsTrim (getValue row "tag" ["sat_tag", "sat tag", "category"])
  difficulty := normalizeDifficulty (orDefault (getValue row "difficulty" []) "medium")
  instructions := normText (getValue row "instructions" ["instruction", "passage"])
  question_text := normText (getValue row "question_text" ["question", "question text"])
  answer_a := normText (getValue row "answer_a"
    ["option_a", "option_1", "answer a", "option a", "option 1"])
  answer_b := normText (getValue row "answer_b"
    ["option_b", "option_2", "answer b", "option b", "option 2"])
  answer_c := normText (getValue row "answer_c"
    ["option_c", "option_3", "answer c", "option c", "option 3"])
  answer_d := normText (getValue row "answer_d"
    ["option_d", "option_4", "answer d", "option d", "option 4"])
  correct_answer := jsToUpper (jsTrim (getValue row "correct_answer" ["correct answer"]))
  explanation := normText (getValue row "explanation" ["solution"])

/-- The skip test of the parse loop: the row is skipped when its resolved
question identifier is falsy or trims to the empty string. -/
def skipCheck (row : Row) : Bool :=
  resolveQuestionId row == "" || jsTrim (resolveQuestionId row) == ""

/-- The per-row loop of parseExcelFile: parsed questions in row order plus
the count of skipped rows. -/
def parseLoop : List Row → List ParsedQuestion × Nat
  | [] => ([], 0)
  | row :: rest =>
    let r := parseLoop rest
    if skipCheck row then (r.1, r.2 + 1)
    else (parseRow row :: r.1, r.2)

/-- The headers detected from the first data row. -/
def headersOf (jsonData : List Row) : List String :=
  (jsonData.headD []).map Prod.fst

/-- requiredHeaders of parseExcelFile. -/
def requiredHeaders : List String :=
  ["questionid", "referenceid", "question_id", "reference_id"]

/-- The header validation of parseExcelFile: some required header has a
normalized match among the normalized detected headers. -/
def hasRequiredHeader (headers : List String) : Bool :=
  requiredHeaders.any (fun req => (headers.map normalizeKey).contains (normalizeKey req))

/-- The empty-file rejection message. -/
def emptyFileMsg : String :=
  "The Excel file is empty or has no data rows. Please ensure your file contains data."

/-- The missing-header rejection message, listing the detected headers. -/
def missingHeaderMsg (headers : List String) : String :=
  "Missing required column \x27question_id\x27 or \x27reference_id\x27.\n\nDetected columns: \""
    ++ String.intercalate "\", \"" headers
    ++ "\"\n\nPlease ensure your Excel file has a column named \x27question_id\x27, \x27Question_ID\x27, \x27Question ID\x27, \x27reference_id\x27, \x27Reference_ID\x27, or \x27Reference ID\x27."

/-- The zero-valid-rows rejection message, listing skip count and headers. -/
def noValidMsg (headers : List String) (skippedRows : Nat) : String :=
  "No valid questions found in the Excel file. "
    ++ (if skippedRows > 0 then
          toString skippedRows
            ++ " row(s) were skipped because they had no question_id/reference_id value."
        else "")
    ++ "\n\nDetected columns: \""
    ++ String.intercalate "\", \"" headers
    ++ "\"\n\nPlease ensure:\n1. Your column headers match the expected format (e.g., \x27question_id\x27, \x27Question_ID\x27, or \x27Question ID\x27)\n2. Your data rows contain values in the question_id/reference_id column"

/-- The body of parseExcelFile after the cell-decoding collaborator has
produced the row list: file-level validation, the per-row loop, and the
zero-valid-rows escalation. -/
def parseExcelRows (jsonData : List Row) : Except String (List ParsedQuestion) :=
  if jsonData.length = 0 then .error emptyFileMsg
  else
    let headers := headersOf jsonData
    if !hasRequiredHeader headers then .error (missingHeaderMsg headers)
    else
      let r := parseLoop jsonData
      if r.1.length = 0 then .error (noValidMsg headers r.2)
      else .ok r.1

/-! ## Data model (src/lib/supabase.ts) -/

/-- Question record to persist. The question type and difficulty are strings
in the embedding: the source narrows them by unchecked type assertions only. -/
structure Question where
  question_id : Option String := none
  reference_id : String
  question_type : String
  question_text : String
  instructions : String
  explanation : String
  difficulty : String
  tag : String
  answer_choices : List String
  correct_answer : String
deriving DecidableEq, Repr

/-- Test record to persist. -/
structure Test where
  test_id : Option String := none
  reference_id : Option String := none
  title : String
  description : Option String := none
  test_date : Option String := none
  is_full_test : Option Bool := none
  is_archived : Option Bool := none
  is_monitored : Option Bool := none
deriving DecidableEq, Repr

/-- TestQuestion junction record to persist. -/
structure TestQuestion where
  test_question_id : Option String := none
  question_id : String
  test_section_id : String
  test_id : String
  order_in_test : Nat
deriving DecidableEq, Repr

/-! ## Question Converter (src/lib/excel-parser.ts) -/

/-- The answerMap lookup of convertToQuestion: letter to 1-based index. -/
def answerMapFn : String → Option String
  | "A" => some "1"
  | "B" => some "2"
  | "C" => some "3"
  | "D" => some "4"
  | _ => none

/-- convertToQuestion of excel-parser.ts. -/
def convertToQuestion (parsed : ParsedQuestion) : Question :=
  let answerChoices :=
    [parsed.answer_a, parsed.answer_b, parsed.answer_c, parsed.answer_d].filter
      (fun choice => choice != "")
  let isNumeric := answerChoices.length = 0
  { reference_id := parsed.reference_id
    question_type := if isNumeric then "numeric" else "multiple_choice"
    question_text := parsed.question_text
    instructions := parsed.instructions
    explanation := parsed.explanation
    difficulty := parsed.difficulty
    tag := parsed.tag
    answer_choices := answerChoices
    correct_answer :=
      if isNumeric then parsed.correct_answer
      else (answerMapFn parsed.correct_answer).getD "1" }

/-- convertParsedQuestions of excel-parser.ts. -/
def convertParsedQuestions (parsedQuestions : List ParsedQuestion) : List Question :=
  parsedQuestions.map convertToQuestion

/-! ## Upload Orchestrator (the upload service module)

The store is an oracle assigning a response to every write, indexed by the
position of the write within its phase; every function returns the writes it
issued, the progress events it emitted, and the propagated result. -/

/-- One write issued against the record store. -/
inductive WriteOp where
  | insertQuestion (q : Question)
  | insertTest (t : Test)
  | updateSection (sid : String) (desmos math : Bool)
  | insertTestQuestion (tq : TestQuestion)
deriving DecidableEq, Repr

/-- A progress event handed to the onProgress callback. -/
structure ProgressEvent where
  stage : String
  current : Nat
  total : Nat
  message : String
deriving DecidableEq, Repr

/-- The record-store oracle: a response for each write. Both insert responses
mirror the supabase data/error pair: an error message, or the optionally
returned identifier of the inserted row. -/
structure Store where
  insertQuestionR : Nat → Question → Except String (Option String)
  insertTestR : Test → Except String (Option String)
  updateSectionR : Nat → String → Option String
  insertTestQuestionR : Nat → TestQuestion → Option String

/-- Trace of one orchestrator run: issued writes, emitted progress events,
and the result propagated to the caller. -/
structure RunOut (α : Type) where
  writes : List WriteOp
  events : List ProgressEvent
  result : Except String α

/-- The loop of uploadQuestions: one insert per question, collecting the
returned identifiers, aborting with a positional message on the first
store error. -/
def uploadQuestionsGo (s : Store) (total : Nat) : Nat → List Question → RunOut (List String)
  | _, [] => ⟨[], [], .ok []⟩
  | i, q :: rest =>
    let ev : ProgressEvent :=
      ⟨"questions", i + 1, total,
        "Uploading question " ++ toString (i + 1) ++ " of " ++ toString total⟩
    match s.insertQuestionR i q with
    | .error m =>
      ⟨[.insertQuestion q], [ev],
        .error ("Failed to upload question " ++ toString (i + 1) ++ ": " ++ m)⟩
    | .ok idOpt =>
      let r := uploadQuestionsGo s total (i + 1) rest
      ⟨.insertQuestion q :: r.writes, ev :: r.events,
        match r.result with
        | .error e => .error e
        | .ok ids => .ok (match idOpt with | some id => id :: ids | none => ids)⟩

/-- uploadQuestions of the upload service. -/
def uploadQuestions (s : Store) (questions : List Question) : RunOut (List String) :=
  uploadQuestionsGo s questions.length 0 questions

/-- createTest of the upload service. -/
def createTest (s : Store) (test : Test) : RunOut String :=
  let ev : ProgressEvent := ⟨"test", 1, 1, "Creating test entry..."⟩
  match s.insertTestR test with
  | .error m => ⟨[.insertTest test], [ev], .error ("Failed to create test: " ++ m)⟩
  | .ok none => ⟨[.insertTest test], [ev], .error "Test created but no test_id returned"⟩
  | .ok (some id) => ⟨[.insertTest test], [ev], .ok id⟩

/-- The loop of updateTestSections over the filtered math modules: each
update is issued; a store error is only logged, never propagated, and the
loop continues. Returns the issued writes and the logged messages. -/
def updateTestSectionsGo (s : Store) : Nat → List Nat → List WriteOp × List String
  | _, [] => ([], [])
  | i, n :: rest =>
    let sid := "TESTSECTION" ++ toString n
    let r := updateTestSectionsGo s (i + 1) rest
    (.updateSection sid true true :: r.1,
      match s.updateSectionR i sid with
      | some m => ("Error updating test section " ++ sid ++ ": " ++ m) :: r.2
      | none => r.2)

/-- updateTestSections of the upload service: only modules numbered 3 or 4
are updated, marking them desmos-allowed math sections. -/
def updateTestSections (s : Store) (moduleNumbers : List Nat) : List WriteOp × List String :=
  updateTestSectionsGo s 0 (moduleNumbers.filter (fun n => n == 3 || n == 4))

/-- The loop of uploadTestQuestions: one insert per linking row, aborting
with a positional message on the first store error. -/
def uploadTestQuestionsGo (s : Store) (total : Nat) : Nat → List TestQuestion → RunOut Unit
  | _, [] => ⟨[], [], .ok ()⟩
  | i, tq :: rest =>
    let ev : ProgressEvent :=
      ⟨"test_questions", i + 1, total,
        "Linking question " ++ toString (i + 1) ++ " of " ++ toString total⟩
    match s.insertTestQuestionR i tq with
    | some m =>
      ⟨[.insertTestQuestion tq], [ev],
        .error ("Failed to link question " ++ toString (i + 1) ++ ": " ++ m)⟩
    | none =>
      let r := uploadTestQuestionsGo s total (i + 1) rest
      ⟨.insertTestQuestion tq :: r.writes, ev :: r.events, r.result⟩

/-- uploadTestQuestions of the upload service. -/
def uploadTestQuestions (s : Store) (testQuestions : List TestQuestion) : RunOut Unit :=
  uploadTestQuestionsGo s testQuestions.length 0 testQuestions

/-- ModuleData of the upload service. -/
structure ModuleData where
  moduleNumber : Nat
  questions : List Question
deriving DecidableEq, Repr

/-- The flattening of step 1 of uploadBulkData. -/
def allQuestionsOf (modules : List ModuleData) : List Question :=
  (modules.map (fun m => m.questions)).flatten

/-- The id mapping of uploadBulkData: slice the flat identifier list back
into per-module groups using each question count, in module order. -/
def sliceIds : List ModuleData → List String → List (Nat × List String)
  | [], _ => []
  | m :: rest, ids =>
    (m.moduleNumber, ids.take m.questions.length)
      :: sliceIds rest (ids.drop m.questions.length)

/-- The inner loop of step 3 of uploadBulkData: linking rows of one module,
consuming consecutive values of the shared order counter. -/
def buildModuleTQs (testId sid : String) : List String → Nat → List TestQuestion
  | [], _ => []
  | id :: rest, counter =>
    { question_id := id, test_section_id := sid, test_id := testId,
      order_in_test := counter } :: buildModuleTQs testId sid rest (counter + 1)

/-- Step 3 of uploadBulkData: the linking rows of all modules in module
order, with a single counter never reset between modules. -/
def buildTestQuestions (testId : String) : List (Nat × List String) → Nat → List TestQuestion
  | [], _ => []
  | (n, ids) :: rest, counter =>
    buildModuleTQs testId ("TESTSECTION" ++ toString n) ids counter
      ++ buildTestQuestions testId rest (counter + ids.length)

/-- The result of a successful bulk upload. -/
structure BulkResult where
  test_id : String
  total_questions : Nat
deriving DecidableEq, Repr

/-- The Test record built by step 2 of uploadBulkData. -/
def testOf (modules : List ModuleData) (testTitle testDescription : String) : Test :=
  { title := testTitle, description := some testDescription,
    is_full_test := some (modules.length == 4) }

/-- uploadBulkData of the upload service: questions phase, test phase,
best-effort section updates, linking phase, completion event. -/
def uploadBulkData (s : Store) (modules : List ModuleData)
    (testTitle testDescription : String) : RunOut BulkResult :=
  let allQuestions := allQuestionsOf modules
  let r1 := uploadQuestions s allQuestions
  match r1.result with
  | .error e => ⟨r1.writes, r1.events, .error e⟩
  | .ok questionIds =>
    let r2 := createTest s (testOf modules testTitle testDescription)
    match r2.result with
    | .error e => ⟨r1.writes ++ r2.writes, r1.events ++ r2.events, .error e⟩
    | .ok testId =>
      let secWrites := (updateTestSections s (modules.map (fun m => m.moduleNumber))).1
      let testQuestions := buildTestQuestions testId (sliceIds modules questionIds) 1
      let r4 := uploadTestQuestions s testQuestions
      match r4.result with
      | .error e =>
        ⟨r1.writes ++ r2.writes ++ secWrites ++ r4.writes,
          r1.events ++ r2.events ++ r4.events, .error e⟩
      | .ok _ =>
        ⟨r1.writes ++ r2.writes ++ secWrites ++ r4.writes,
          r1.events ++ r2.events ++ r4.events
            ++ [⟨"complete", testQuestions.length, testQuestions.length, "Upload complete!"⟩],
          .ok ⟨testId, allQuestions.length⟩⟩

/-! ## Page-level upload guard (src/app/page.tsx) -/

/-- A parsed file with its assigned module number, as held by the page. -/
structure FileWithModule where
  moduleNumber : Nat
  questions : List Question
deriving DecidableEq, Repr

/-- handleUpload of the page: reject a blank title or an empty file list
before invoking uploadBulkData, issuing no store write in those cases. -/
def handleUpload (s : Store) (testTitle testDescription : String)
    (files : List FileWithModule) : RunOut BulkResult :=
  if jsTrim testTitle == "" then ⟨[], [], .error "Please enter a test title"⟩
  else if files.length == 0 then ⟨[], [], .error "Please upload at least one file"⟩
  else
    uploadBulkData s
      (files.map (fun f => ⟨f.moduleNumber, f.questions⟩)) testTitle testDescription

/-! ## Trace observers -/

/-- The question records inserted in a trace. -/
def insertedQuestions : List WriteOp → List Question
  | [] => []
  | .insertQuestion q :: rest => q :: insertedQuestions rest
  | _ :: rest => insertedQuestions rest

/-- The test records inserted in a trace. -/
def insertedTests : List WriteOp → List Test
  | [] => []
  | .insertTest t :: rest => t :: insertedTests rest
  | _ :: rest => insertedTests rest

/-- The linking rows inserted in a trace. -/
def linkedRows : List WriteOp → List TestQuestion
  | [] => []
  | .insertTestQuestion tq :: rest => tq :: linkedRows rest
  | _ :: rest => linkedRows rest

/-- The section updates issued by updateTestSections for a module-number
list: exactly the modules numbered 3 or 4, both flags set true. -/
def secOps (moduleNumbers : List Nat) : List WriteOp :=
  (moduleNumbers.filter (fun n => n == 3 || n == 4)).map
    (fun n => .updateSection ("TESTSECTION" ++ toString n) true true)

/-! ## Concrete fixtures used by witnesses and counterexamples -/

/-- A store that accepts every write and returns positional identifiers. -/
def okStore : Store where
  insertQuestionR := fun i _ => .ok (some ("QID" ++ toString (i + 1)))
  insertTestR := fun _ => .ok (some "TID1")
  updateSectionR := fun _ _ => none
  insertTestQuestionR := fun _ _ => none

/-- A store that rejects exactly the second question insert. -/
def failQ2Store : Store :=
  { okStore with insertQuestionR := fun i _ =>
      if i = 1 then .error "db down" else .ok (some ("QID" ++ toString (i + 1))) }

/-- A store that rejects exactly the second linking insert. -/
def failLink2Store : Store :=
  { okStore with insertTestQuestionR := fun i _ =>
      if i = 1 then some "db down" else none }

/-- A minimal persisted question used to populate fixture modules. -/
def sampleQ (r : String) : Question :=
  { reference_id := r, question_type := "numeric", question_text := "",
    instructions := "", explanation := "", difficulty := "medium", tag := "",
    answer_choices := [], correct_answer := "5" }

/-- Two modules: module 1 with two questions, module 3 with one question. -/
def exModules : List ModuleData :=
  [⟨1, [sampleQ "a", sampleQ "b"]⟩, ⟨3, [sampleQ "c"]⟩]

/-- The positional identifier function of okStore. -/
def exIdf (j : Nat) : String := "QID" ++ toString (j + 1)

/-! ## Lemmas about the trace observers -/

theorem linkedRows_append (l₁ l₂ : List WriteOp) :
    linkedRows (l₁ ++ l₂) = linkedRows l₁ ++ linkedRows l₂ := by
  induction l₁ with
  | nil => rfl
  | cons op rest ih => cases op <;> simp [linkedRows, ih]

theorem insertedTests_append (l₁ l₂ : List WriteOp) :
    insertedTests (l₁ ++ l₂) = insertedTests l₁ ++ insertedTests l₂ := by
  induction l₁ with
  | nil => rfl
  | cons op rest ih => cases op <;> simp [insertedTests, ih]

theorem insertedQuestions_append (l₁ l₂ : List WriteOp) :
    insertedQuestions (l₁ ++ l₂) = insertedQuestions l₁ ++ insertedQuestions l₂ := by
  induction l₁ with
  | nil => rfl
  | cons op rest ih => cases op <;> simp [insertedQuestions, ih]

theorem linkedRows_map_insertQuestion (qs : List Question) :
    linkedRows (qs.map WriteOp.insertQuestion) = [] := by
  induction qs with
  | nil => rfl
  | cons q rest ih => simp [linkedRows, ih]

theorem linkedRows_map_insertTestQuestion (tqs : List TestQuestion) :
    linkedRows (tqs.map WriteOp.insertTestQuestion) = tqs := by
  induction tqs with
  | nil => rfl
  | cons tq rest ih => simp [linkedRows, ih]

theorem linkedRows_secOps (nums : List Nat) : linkedRows (secOps nums) = [] := by
  unfold secOps
  induction nums.filter (fun n => n == 3 || n == 4) with
  | nil => rfl
  | cons n rest ih => simp [linkedRows, ih]

theorem insertedTests_map_insertQuestion (qs : List Question) :
    insertedTests (qs.map WriteOp.insertQuestion) = [] := by
  induction qs with
  | nil => rfl
  | cons q rest ih => simp [insertedTests, ih]

theorem insertedTests_map_insertTestQuestion (tqs : List TestQuestion) :
    insertedTests (tqs.map WriteOp.insertTestQuestion) = [] := by
  induction tqs with
  | nil => rfl
  | cons tq rest ih => simp [insertedTests, ih]

theorem insertedTests_secOps (nums : List Nat) : insertedTests (secOps nums) = [] := by
  unfold secOps
  induction nums.filter (fun n => n == 3 || n == 4) with
  | nil => rfl
  | cons n rest ih => simp [insertedTests, ih]

theorem insertedQuestions_map_insertQuestion (qs : List Question) :
    insertedQuestions (qs.map WriteOp.insertQuestion) = qs := by
  induction qs with
  | nil => rfl
  | cons q rest ih => simp [insertedQuestions, ih]

/-! ## Lemmas about the orchestrator phases -/

theorem uploadQuestionsGo_ok_writes (s : Store) (idf : Nat → String)
    (hq : ∀ j q, s.insertQuestionR j q = .ok (some (idf j))) (total : Nat)
    (qs : List Question) : ∀ base : Nat,
    (uploadQuestionsGo s total base qs).writes = qs.map WriteOp.insertQuestion := by
  induction qs with
  | nil => intro base; rfl
  | cons q rest ih =>
    intro base
    simp only [uploadQuestionsGo, hq base q]
    simp [ih (base + 1)]

theorem uploadQuestionsGo_ok_result (s : Store) (idf : Nat → String)
    (hq : ∀ j q, s.insertQuestionR j q = .ok (some (idf j))) (total : Nat)
    (qs : List Question) : ∀ base : Nat,
    (uploadQuestionsGo s total base qs).result
      = .ok ((List.range' base qs.length).map idf) := by
  induction qs with
  | nil => intro base; rfl
  | cons q rest ih =>
    intro base
    simp only [uploadQuestionsGo, hq base q]
    simp [ih (base + 1), List.range'_succ]

theorem uploadQuestionsGo_fail (s : Store) (m : String) (total : Nat)
    (qs : List Question) : ∀ (base i : Nat), i < qs.length →
    (∀ j, j < i → ∀ q, ∃ v, s.insertQuestionR (base + j) q = Except.ok v) →
    (∀ q, s.insertQuestionR (base + i) q = .error m) →
    (uploadQuestionsGo s total base qs).writes
        = (qs.take (i + 1)).map WriteOp.insertQuestion ∧
    (uploadQuestionsGo s total base qs).result
        = .error ("Failed to upload question " ++ toString (base + i + 1) ++ ": " ++ m) := by
  induction qs with
  | nil => intro base i hi _ _; exact absurd hi (Nat.not_lt_zero i)
  | cons q rest ih =>
    intro base i hi hpre herr
    cases i with
    | zero =>
      have h := herr q
      simp only [Nat.add_zero] at h
      simp [uploadQuestionsGo, h]
    | succ i' =>
      obtain ⟨v, hv⟩ := hpre 0 (Nat.succ_pos i') q
      simp only [Nat.add_zero] at hv
      have harith : ∀ k : Nat, base + 1 + k = base + (k + 1) := by intro k; omega
      have ih' := ih (base + 1) i' (Nat.lt_of_succ_lt_succ hi)
        (fun j hj q' => by
          have h := hpre (j + 1) (Nat.succ_lt_succ hj) q'
          rw [harith j]; exact h)
        (fun q' => by rw [harith i']; exact herr q')
      simp only [uploadQuestionsGo, hv]
      refine ⟨by simp [ih'.1], ?_⟩
      have hres := ih'.2
      rw [harith i'] at hres
      simp [hres]

theorem createTest_writes (s : Store) (t : Test) :
    (createTest s t).writes = [WriteOp.insertTest t] := by
  unfold createTest
  cases h : s.insertTestR t with
  | error m => rfl
  | ok o => cases o <;> rfl

theorem createTest_ok_result (s : Store) (t : Test) (tid : String)
    (h : s.insertTestR t = .ok (some tid)) : (createTest s t).result = .ok tid := by
  unfold createTest
  rw [h]

theorem updateTestSectionsGo_writes (s : Store) (nums : List Nat) : ∀ base : Nat,
    (updateTestSectionsGo s base nums).1
      = nums.map (fun n => WriteOp.updateSection ("TESTSECTION" ++ toString n) true true) := by
  induction nums with
  | nil => intro base; rfl
  | cons n rest ih =>
    intro base
    simp only [updateTestSectionsGo]
    simp [ih (base + 1)]

theorem updateTestSections_writes (s : Store) (nums : List Nat) :
    (updateTestSections s nums).1 = secOps nums := by
  unfold updateTestSections secOps
  exact updateTestSectionsGo_writes s _ 0

theorem uploadTestQuestionsGo_ok_writes (s : Store)
    (hl : ∀ j tq, s.insertTestQuestionR j tq = none) (total : Nat)
    (tqs : List TestQuestion) : ∀ base : Nat,
    (uploadTestQuestionsGo s total base tqs).writes = tqs.map WriteOp.insertTestQuestion := by
  induction tqs with
  | nil => intro base; rfl
  | cons tq rest ih =>
    intro base
    simp only [uploadTestQuestionsGo, hl base tq]
    simp [ih (base + 1)]

theorem uploadTestQuestionsGo_ok_result (s : Store)
    (hl : ∀ j tq, s.insertTestQuestionR j tq = none) (total : Nat)
    (tqs : List TestQuestion) : ∀ base : Nat,
    (uploadTestQuestionsGo s total base tqs).result = .ok () := by
  induction tqs with
  | nil => intro base; rfl
  | cons tq rest ih =>
    intro base
    simp only [uploadTestQuestionsGo, hl base tq]
    simp [ih (base + 1)]

theorem uploadTestQuestionsGo_fail (s : Store) (m : String) (total : Nat)
    (tqs : List TestQuestion) : ∀ (base i : Nat), i < tqs.length →
    (∀ j, j < i → ∀ tq, s.insertTestQuestionR (base + j) tq = none) →
    (∀ tq, s.insertTestQuestionR (base + i) tq = some m) →
    (uploadTestQuestionsGo s total base tqs).writes
        = (tqs.take (i + 1)).map WriteOp.insertTestQuestion ∧
    (uploadTestQuestionsGo s total base tqs).result
        = .error ("Failed to link question " ++ toString (base + i + 1) ++ ": " ++ m) := by
  induction tqs with
  | nil => intro base i hi _ _; exact absurd hi (Nat.not_lt_zero i)
  | cons tq rest ih =>
    intro base i hi hpre herr
    cases i with
    | zero =>
      have h := herr tq
      simp only [Nat.add_zero] at h
      simp [uploadTestQuestionsGo, h]
    | succ i' =>
      have hv := hpre 0 (Nat.succ_pos i') tq
      simp only [Nat.add_zero] at hv
      have harith : ∀ k : Nat, base + 1 + k = base + (k + 1) := by intro k; omega
      have ih' := ih (base + 1) i' (Nat.lt_of_succ_lt_succ hi)
        (fun j hj tq' => by rw [harith j]; exact hpre (j + 1) (Nat.succ_lt_succ hj) tq')
        (fun tq' => by rw [harith i']; exact herr tq')
      simp only [uploadTestQuestionsGo, hv]
      refine ⟨by simp [ih'.1], ?_⟩
      have hres := ih'.2
      rw [harith i'] at hres
      simp [hres]

/-! ## Lemmas about the linking-row construction and the id slicing -/

theorem buildModuleTQs_map_order (testId sid : String) (ids : List String) : ∀ c : Nat,
    (buildModuleTQs testId sid ids c).map (fun tq => tq.order_in_test)
      = List.range' c ids.length := by
  induction ids with
  | nil => intro c; rfl
  | cons id rest ih => intro c; simp [buildModuleTQs, ih (c + 1), List.range'_succ]

theorem buildModuleTQs_map_qid (testId sid : String) (ids : List String) : ∀ c : Nat,
    (buildModuleTQs testId sid ids c).map (fun tq => tq.question_id) = ids := by
  induction ids with
  | nil => intro c; rfl
  | cons id rest ih => intro c; simp [buildModuleTQs, ih (c + 1)]

theorem buildModuleTQs_map_sid (testId sid : String) (ids : List String) : ∀ c : Nat,
    (buildModuleTQs testId sid ids c).map (fun tq => tq.test_section_id)
      = List.replicate ids.length sid := by
  induction ids with
  | nil => intro c; rfl
  | cons id rest ih => intro c; simp [buildModuleTQs, ih (c + 1), List.replicate_succ]

theorem build_slice_order (tid : String) (modules : List ModuleData) :
    ∀ (ids : List String) (c : Nat),
    ids.length = (modules.map (fun m => m.questions.length)).sum →
    (buildTestQuestions tid (sliceIds modules ids) c).map (fun tq => tq.order_in_test)
      = List.range' c ids.length := by
  induction modules with
  | nil =>
    intro ids c h
    simp only [List.map_nil, List.sum_nil] at h
    simp [sliceIds, buildTestQuestions, h]
  | cons mo rest ih =>
    intro ids c h
    simp only [List.map_cons, List.sum_cons] at h
    have hcnt : mo.questions.length ≤ ids.length := by omega
    have hTake : (ids.take mo.questions.length).length = mo.questions.length := by
      rw [List.length_take]; omega
    have hDrop : (ids.drop mo.questions.length).length
        = ids.length - mo.questions.length := List.length_drop _ _
    simp only [sliceIds, buildTestQuestions, List.map_append]
    rw [buildModuleTQs_map_order, hTake,
      ih (ids.drop mo.questions.length) (c + mo.questions.length) (by omega)]
    rw [hDrop]
    have := List.range'_append c mo.questions.length (ids.length - mo.questions.length) 1
    simp only [Nat.one_mul] at this
    rw [this]
    congr 1
    omega

theorem build_slice_qid (tid : String) (modules : List ModuleData) :
    ∀ (ids : List String) (c : Nat),
    ids.length = (modules.map (fun m => m.questions.length)).sum →
    (buildTestQuestions tid (sliceIds modules ids) c).map (fun tq => tq.question_id)
      = ids := by
  induction modules with
  | nil =>
    intro ids c h
    simp only [List.map_nil, List.sum_nil] at h
    have : ids = [] := List.eq_nil_of_length_eq_zero h
    simp [sliceIds, buildTestQuestions, this]
  | cons mo rest ih =>
    intro ids c h
    simp only [List.map_cons, List.sum_cons] at h
    have hTake : (ids.take mo.questions.length).length = mo.questions.length := by
      rw [List.length_take]; omega
    simp only [sliceIds, buildTestQuestions, List.map_append]
    rw [buildModuleTQs_map_qid, hTake,
      ih (ids.drop mo.questions.length) (c + mo.questions.length)
        (by rw [List.length_drop]; omega)]
    exact List.take_append_drop _ ids

theorem build_slice_sid (tid : String) (modules : List ModuleData) :
    ∀ (ids : List String) (c : Nat),
    ids.length = (modules.map (fun m => m.questions.length)).sum →
    (buildTestQuestions tid (sliceIds modules ids) c).map (fun tq => tq.test_section_id)
      = (modules.map (fun m =>
          List.replicate m.questions.length ("TESTSECTION" ++ toString m.moduleNumber))).flatten := by
  induction modules with
  | nil =>
    intro ids c h
    simp [sliceIds, buildTestQuestions]
  | cons mo rest ih =>
    intro ids c h
    simp only [List.map_cons, List.sum_cons] at h
    have hTake : (ids.take mo.questions.length).length = mo.questions.length := by
      rw [List.length_take]; omega
    simp only [sliceIds, buildTestQuestions, List.map_append, List.map_cons,
      List.flatten_cons]
    rw [buildModuleTQs_map_sid, hTake,
      ih (ids.drop mo.questions.length) (c + mo.questions.length)
        (by rw [List.length_drop]; omega)]

theorem allQuestionsOf_length (modules : List ModuleData) :
    (allQuestionsOf modules).length = (modules.map (fun m => m.questions.length)).sum := by
  unfold allQuestionsOf
  rw [List.length_flatten, List.map_map]
  rfl

/-! ## Master lemmas about a fully accepting store -/

theorem uploadBulkData_ok_result (s : Store) (idf : Nat → String) (tid : String)
    (modules : List ModuleData) (testTitle testDescription : String)
    (hq : ∀ j q, s.insertQuestionR j q = .ok (some (idf j)))
    (ht : ∀ t, s.insertTestR t = .ok (some tid))
    (hl : ∀ j tq, s.insertTestQuestionR j tq = none) :
    (uploadBulkData s modules testTitle testDescription).result
      = .ok ⟨tid, (allQuestionsOf modules).length⟩ := by
  unfold uploadBulkData uploadQuestions uploadTestQuestions
  simp only [uploadQuestionsGo_ok_result s idf hq, createTest_ok_result s _ tid (ht _),
    uploadTestQuestionsGo_ok_result s hl]

theorem uploadBulkData_ok_writes (s : Store) (idf : Nat → String) (tid : String)
    (modules : List ModuleData) (testTitle testDescription : String)
    (hq : ∀ j q, s.insertQuestionR j q = .ok (some (idf j)))
    (ht : ∀ t, s.insertTestR t = .ok (some tid))
    (hl : ∀ j tq, s.insertTestQuestionR j tq = none) :
    (uploadBulkData s modules testTitle testDescription).writes
      = (allQuestionsOf modules).map WriteOp.insertQuestion
        ++ WriteOp.insertTest (testOf modules testTitle testDescription)
          :: (secOps (modules.map (fun m => m.moduleNumber))
            ++ (buildTestQuestions tid
                (sliceIds modules
                  ((List.range' 0 (allQuestionsOf modules).length).map idf)) 1).map
              WriteOp.insertTestQuestion) := by
  unfold uploadBulkData uploadQuestions uploadTestQuestions
  simp only [uploadQuestionsGo_ok_result s idf hq, createTest_ok_result s _ tid (ht _),
    uploadTestQuestionsGo_ok_result s hl]
  simp only [uploadQuestionsGo_ok_writes s idf hq, createTest_writes,
    uploadTestQuestionsGo_ok_writes s hl, updateTestSections_writes]
  simp

/-! ## Master lemmas about stores failing at one position -/

theorem buildTestQuestions_slice_length (tid : String) (modules : List ModuleData)
    (ids : List String)
    (h : ids.length = (modules.map (fun m => m.questions.length)).sum) :
    (buildTestQuestions tid (sliceIds modules ids) 1).length = ids.length := by
  have := congrArg List.length (build_slice_qid tid modules ids 1 h)
  simpa using this

theorem uploadBulkData_failQ (s : Store) (modules : List ModuleData)
    (testTitle testDescription : String) (i : Nat) (m : String)
    (hi : i < (allQuestionsOf modules).length)
    (hpre : ∀ j, j < i → ∀ q, ∃ v, s.insertQuestionR j q = Except.ok v)
    (herr : ∀ q, s.insertQuestionR i q = .error m) :
    (uploadBulkData s modules testTitle testDescription).result
        = .error ("Failed to upload question " ++ toString (i + 1) ++ ": " ++ m) ∧
    (uploadBulkData s modules testTitle testDescription).writes
        = ((allQuestionsOf modules).take (i + 1)).map WriteOp.insertQuestion := by
  have hfail := uploadQuestionsGo_fail s m (allQuestionsOf modules).length
    (allQuestionsOf modules) 0 i hi
    (fun j hj q => by rw [Nat.zero_add]; exact hpre j hj q)
    (fun q => by rw [Nat.zero_add]; exact herr q)
  rw [Nat.zero_add] at hfail
  unfold uploadBulkData uploadQuestions
  simp only [hfail.2, hfail.1]
  exact ⟨trivial, trivial⟩

theorem uploadBulkData_failLink (s : Store) (idf : Nat → String) (tid : String)
    (modules : List ModuleData) (testTitle testDescription : String)
    (i : Nat) (m : String)
    (hq : ∀ j q, s.insertQuestionR j q = .ok (some (idf j)))
    (ht : ∀ t, s.insertTestR t = .ok (some tid))
    (hi : i < (allQuestionsOf modules).length)
    (hpre : ∀ j, j < i → ∀ tq, s.insertTestQuestionR j tq = none)
    (herr : ∀ tq, s.insertTestQuestionR i tq = some m) :
    (uploadBulkData s modules testTitle testDescription).result
        = .error ("Failed to link question " ++ toString (i + 1) ++ ": " ++ m) ∧
    (uploadBulkData s modules testTitle testDescription).writes
        = (allQuestionsOf modules).map WriteOp.insertQuestion
          ++ WriteOp.insertTest (testOf modules testTitle testDescription)
            :: (secOps (modules.map (fun m => m.moduleNumber))
              ++ ((buildTestQuestions tid
                  (sliceIds modules
                    ((List.range' 0 (allQuestionsOf modules).length).map idf)) 1).take
                    (i + 1)).map
                WriteOp.insertTestQuestion) := by
  have hlen : ((List.range' 0 (allQuestionsOf modules).length).map idf).length
      = (modules.map (fun m => m.questions.length)).sum := by
    simp [allQuestionsOf_length]
  have hi' : i < (buildTestQuestions tid
      (sliceIds modules ((List.range' 0 (allQuestionsOf modules).length).map idf)) 1).length := by
    rw [buildTestQuestions_slice_length tid modules _ hlen]
    simpa [allQuestionsOf_length] using hi
  have hfail := uploadTestQuestionsGo_fail s m
    (buildTestQuestions tid
      (sliceIds modules ((List.range' 0 (allQuestionsOf modules).length).map idf)) 1).length
    (buildTestQuestions tid
      (sliceIds modules ((List.range' 0 (allQuestionsOf modules).length).map idf)) 1)
    0 i hi'
    (fun j hj tq => by rw [Nat.zero_add]; exact hpre j hj tq)
    (fun tq => by rw [Nat.zero_add]; exact herr tq)
  rw [Nat.zero_add] at hfail
  unfold uploadBulkData uploadQuestions uploadTestQuestions
  simp only [uploadQuestionsGo_ok_result s idf hq, createTest_ok_result s _ tid (ht _)]
  simp only [hfail.1, hfail.2]
  simp only [uploadQuestionsGo_ok_writes s idf hq, createTest_writes,
    updateTestSections_writes]
  simp

/-! ## The orchestrator outcome is insensitive to section-update responses -/

theorem uploadQuestionsGo_congr (s s' : Store)
    (h : s.insertQuestionR = s'.insertQuestionR) (total : Nat) (qs : List Question) :
    ∀ base : Nat, uploadQuestionsGo s total base qs = uploadQuestionsGo s' total base qs := by
  induction qs with
  | nil => intro base; rfl
  | cons q rest ih =>
    intro base
    simp only [uploadQuestionsGo, h]
    cases s'.insertQuestionR base q <;> simp [ih (base + 1)]

theorem createTest_congr (s s' : Store) (h : s.insertTestR = s'.insertTestR) (t : Test) :
    createTest s t = createTest s' t := by
  unfold createTest
  rw [h]

theorem uploadTestQuestionsGo_congr (s s' : Store)
    (h : s.insertTestQuestionR = s'.insertTestQuestionR) (total : Nat)
    (tqs : List TestQuestion) :
    ∀ base : Nat, uploadTestQuestionsGo s total base tqs = uploadTestQuestionsGo s' total base tqs := by
  induction tqs with
  | nil => intro base; rfl
  | cons tq rest ih =>
    intro base
    simp only [uploadTestQuestionsGo, h]
    cases s'.insertTestQuestionR base tq <;> simp [ih (base + 1)]

theorem uploadBulkData_updSec (s : Store) (f : Nat → String → Option String)
    (modules : List ModuleData) (testTitle testDescription : String) :
    uploadBulkData { s with updateSectionR := f } modules testTitle testDescription
      = uploadBulkData s modules testTitle testDescription := by
  have h1 : ∀ qs, uploadQuestions { s with updateSectionR := f } qs = uploadQuestions s qs := by
    intro qs
    show uploadQuestionsGo { s with updateSectionR := f } qs.length 0 qs
      = uploadQuestionsGo s qs.length 0 qs
    exact uploadQuestionsGo_congr { s with updateSectionR := f } s rfl qs.length qs 0
  have h2 : ∀ t, createTest { s with updateSectionR := f } t = createTest s t :=
    fun t => createTest_congr _ s rfl t
  have h3 : ∀ nums, (updateTestSections { s with updateSectionR := f } nums).1
      = (updateTestSections s nums).1 := by
    intro nums
    rw [updateTestSections_writes, updateTestSections_writes]
  have h4 : ∀ tqs, uploadTestQuestions { s with updateSectionR := f } tqs
      = uploadTestQuestions s tqs := by
    intro tqs
    show uploadTestQuestionsGo { s with updateSectionR := f } tqs.length 0 tqs
      = uploadTestQuestionsGo s tqs.length 0 tqs
    exact uploadTestQuestionsGo_congr { s with updateSectionR := f } s rfl tqs.length tqs 0
  simp only [uploadBulkData, h1, h2, h3, h4]

/-! ## Newline preservation of the free-text post-processing -/

theorem splitLines_ne_nil : ∀ l : List Char, splitLines l ≠ [] := by
  intro l
  cases l with
  | nil => simp [splitLines]
  | cons c rest =>
    simp only [splitLines]
    split <;> simp

theorem mem_splitLines_no_nl : ∀ (l : List Char) (p : List Char),
    p ∈ splitLines l → '\n' ∉ p := by
  intro l
  induction l with
  | nil =>
    intro p hp
    simp [splitLines] at hp
    simp [hp]
  | cons c rest ih =>
    intro p hp
    by_cases hc : c = '\n'
    · simp only [splitLines, hc, if_pos rfl] at hp
      rcases List.mem_cons.mp hp with h | h
      · simp [h]
      · exact ih p h
    · simp only [splitLines, if_neg hc] at hp
      rcases List.mem_cons.mp hp with h | h
      · subst h
        intro hmem
        rcases List.mem_cons.mp hmem with h' | h'
        · exact hc h'.symm
        · obtain ⟨a, as, hr⟩ := List.exists_cons_of_ne_nil (splitLines_ne_nil rest)
          rw [hr] at h'
          simp only [List.headD_cons] at h'
          exact ih a (by rw [hr]; exact List.mem_cons_self a as) h'
      · exact ih p (List.mem_of_mem_tail h)

theorem length_splitLines : ∀ l : List Char,
    (splitLines l).length = l.count '\n' + 1 := by
  intro l
  induction l with
  | nil => rfl
  | cons c rest ih =>
    by_cases hc : c = '\n'
    · subst hc
      simp [splitLines, ih, List.count_cons_self]
    · obtain ⟨a, as, hr⟩ := List.exists_cons_of_ne_nil (splitLines_ne_nil rest)
      simp only [splitLines, if_neg hc]
      rw [List.count_cons_of_ne (fun h => hc h.symm)]
      simp only [List.length_cons, ← ih, hr]
      simp

theorem mem_listTrimWith (q : Char → Bool) (l : List Char) (x : Char)
    (h : x ∈ listTrimWith q l) : x ∈ l := by
  unfold listTrimWith at h
  rw [List.mem_reverse] at h
  have h2 := (List.dropWhile_sublist q).subset h
  rw [List.mem_reverse] at h2
  exact (List.dropWhile_sublist q).subset h2

theorem trimLine_no_nl (p : List Char) (h : '\n' ∉ p) : '\n' ∉ trimLine p :=
  fun hmem => h (mem_listTrimWith tabSpace p '\n' hmem)

theorem count_joinLines : ∀ parts : List (List Char), parts ≠ [] →
    (∀ p ∈ parts, '\n' ∉ p) →
    (joinLines parts).count '\n' = parts.length - 1 := by
  intro parts
  induction parts with
  | nil => intro h; exact absurd rfl h
  | cons l rest ih =>
    intro _ hmem
    cases rest with
    | nil =>
      simp only [joinLines, List.length_cons]
      rw [List.count_eq_zero.mpr (hmem l (List.mem_cons_self l []))]
      simp
    | cons l' ls =>
      have hrec := ih (by simp) (fun p hp => hmem p (List.mem_cons_of_mem l hp))
      simp only [joinLines] at hrec ⊢
      rw [List.count_append, List.count_eq_zero.mpr (hmem l (List.mem_cons_self l _)),
        List.count_cons_self, hrec]
      simp

theorem countNL_trimPreserveLinebreaks (s : String) :
    (trimPreserveLinebreaks s).data.count '\n' = s.data.count '\n' := by
  unfold trimPreserveLinebreaks
  have hne : (splitLines s.data).map trimLine ≠ [] := by
    intro h
    exact splitLines_ne_nil s.data (List.map_eq_nil_iff.mp h)
  have hmem : ∀ p ∈ (splitLines s.data).map trimLine, '\n' ∉ p := by
    intro p hp
    obtain ⟨p₀, hp₀, rfl⟩ := List.mem_map.mp hp
    exact trimLine_no_nl p₀ (mem_splitLines_no_nl s.data p₀ hp₀)
  show (joinLines ((splitLines s.data).map trimLine)).count '\n' = s.data.count '\n'
  rw [count_joinLines _ hne hmem, List.length_map, length_splitLines]
  simp

theorem countNL_convertFracAuxF : ∀ (fuel : Nat) (l : List Char), l.length ≤ fuel →
    (convertFracAuxF fuel l).count '\n' = l.count '\n' := by
  intro fuel
  induction fuel with
  | zero =>
    intro l hl
    rw [List.eq_nil_of_length_eq_zero (Nat.le_zero.mp hl)]
    rfl
  | succ fuel ih =>
    intro l hl
    cases l with
    | nil => rfl
    | cons c rest =>
      by_cases hp : List.isPrefixOf fracPat (c :: rest) = true
      · obtain ⟨t, ht⟩ := (List.isPrefixOf_iff_prefix.mp hp)
        have hdrop : rest.drop 4 = t := by
          have h5 := congrArg (List.drop 5) ht
          rw [show (5 : Nat) = fracPat.length from rfl, List.drop_left] at h5
          exact h5.symm
        have hlen5 : rest.length + 1 = 5 + t.length := by
          have hlen := congrArg List.length ht
          simp [fracPat] at hlen
          omega
        simp only [convertFracAuxF, if_pos hp, hdrop]
        rw [List.count_append, ih t (by simp at hl; omega)]
        have hd : dfracChars.count '\n' = 0 := by decide
        have hf : fracPat.count '\n' = 0 := by decide
        rw [hd, ← ht, List.count_append, hf]
      · simp only [convertFracAuxF, if_neg hp]
        rw [List.count_cons, List.count_cons, ih rest (by simp at hl; omega)]

theorem countNL_convertFracToDisplayFrac (s : String) :
    (convertFracToDisplayFrac s).data.count '\n' = s.data.count '\n' :=
  countNL_convertFracAuxF s.data.length s.data (Nat.le_refl _)

theorem countNL_normText (s : String) :
    (normText s).data.count '\n' = s.data.count '\n' := by
  unfold normText
  rw [countNL_convertFracToDisplayFrac, countNL_trimPreserveLinebreaks]

theorem parseLoop_eq (rows : List Row) :
    parseLoop rows
      = ((rows.filter (fun r => !skipCheck r)).map parseRow,
         (rows.filter skipCheck).length) := by
  induction rows with
  | nil => rfl
  | cons row rest ih =>
    cases h : skipCheck row <;> simp [parseLoop, List.filter_cons, h, ih]

/-! ## Claims -/

/-- Claim C4: convertToQuestion builds answer_choices by taking the four
answer fields in fixed A,B,C,D order and dropping exactly the empty strings;
an empty result yields question_type numeric with correct_answer equal to the
parsed correct-answer field verbatim, otherwise question_type multiple_choice
with correct_answer the image of the letter under the fixed table A to 1,
B to 2, C to 3, D to 4, any unrecognized or empty letter mapping to 1; and
answer_choices is empty iff question_type is numeric. -/
theorem claim_C4 (p : ParsedQuestion) :
    (convertToQuestion p).answer_choices
        = [p.answer_a, p.answer_b, p.answer_c, p.answer_d].filter (fun c => c != "") ∧
    (convertToQuestion p).question_type
        = (if [p.answer_a, p.answer_b, p.answer_c, p.answer_d].filter (fun c => c != "") = []
           then "numeric" else "multiple_choice") ∧
    (convertToQuestion p).correct_answer
        = (if [p.answer_a, p.answer_b, p.answer_c, p.answer_d].filter (fun c => c != "") = []
           then p.correct_answer else (answerMapFn p.correct_answer).getD "1") ∧
    ((convertToQuestion p).answer_choices = [] ↔
      (convertToQuestion p).question_type = "numeric") := by
  unfold convertToQuestion
  by_cases h : [p.answer_a, p.answer_b, p.answer_c, p.answer_d].filter (fun c => c != "") = []
  · simp [h]
  · simp [h, List.length_eq_zero]

/-- Claim C6, counterexample: the claimed example output is wrong. On the
difficulty input Very Hard Level the normalizer produces very intense level,
not very intense: the replacement substitutes the substring hard and keeps
the rest of the token. -/
theorem claim_C6_cex :
    (parseRow [("question_id", "q1"), ("difficulty", "Very Hard Level")]).difficulty
        = "very intense level" ∧
    (parseRow [("question_id", "q1"), ("difficulty", "Very Hard Level")]).difficulty
        ≠ "very intense" := by
  constructor <;> decide

/-- Claim C6, amended: for every input difficulty string the Row Normalizer
lower-cases it, trims it, and replaces the literal substring hard with
intense; in particular the input Hard yields intense and the input
Very Hard Level yields very intense level. -/
theorem claim_C6 (row : Row) :
    (parseRow row).difficulty
        = normalizeDifficulty (orDefault (getValue row "difficulty" []) "medium") ∧
    normalizeDifficulty "Hard" = "intense" ∧
    normalizeDifficulty "Very Hard Level" = "very intense level" :=
  ⟨rfl, by decide, by decide⟩

/-- Claim C10: when no header of the row resolves to the difficulty field, or
the resolved difficulty value is the empty string, the parsed difficulty is
the default medium. -/
theorem claim_C10 (row : Row) (h : getValue row "difficulty" [] = "") :
    (parseRow row).difficulty = "medium" := by
  show normalizeDifficulty (orDefault (getValue row "difficulty" []) "medium") = "medium"
  rw [h]
  decide

/-- Witness for claim C10: a concrete row without a difficulty column. -/
theorem claim_C10_witness : (parseRow [("question_id", "q1")]).difficulty = "medium" :=
  claim_C10 [("question_id", "q1")] (by decide)

/-- Claim C9: every free-text field of a parsed row is the image of the
resolved raw cell under the post-processing that trims horizontal whitespace
at both ends of every line, preserves every internal line break, and then
replaces every occurrence of the frac macro with its display variant; the
line-break count is preserved, and the claimed examples hold. -/
theorem claim_C9 :
    (∀ row : Row,
      (parseRow row).instructions
          = normText (getValue row "instructions" ["instruction", "passage"]) ∧
      (parseRow row).question_text
          = normText (getValue row "question_text" ["question", "question text"]) ∧
      (parseRow row).answer_a
          = normText (getValue row "answer_a"
              ["option_a", "option_1", "answer a", "option a", "option 1"]) ∧
      (parseRow row).answer_b
          = normText (getValue row "answer_b"
              ["option_b", "option_2", "answer b", "option b", "option 2"]) ∧
      (parseRow row).answer_c
          = normText (getValue row "answer_c"
              ["option_c", "option_3", "answer c", "option c", "option 3"]) ∧
      (parseRow row).answer_d
          = normText (getValue row "answer_d"
              ["option_d", "option_4", "answer d", "option d", "option 4"]) ∧
      (parseRow row).explanation = normText (getValue row "explanation" ["solution"])) ∧
    (∀ s : String, (normText s).data.count '\n' = s.data.count '\n') ∧
    trimPreserveLinebreaks "  line1  \n  line2  " = "line1\nline2" ∧
    convertFracToDisplayFrac "\\frac{1}{2}" = "\\dfrac{1}{2}" ∧
    normText "  \\frac{1}{2}  \n  x  " = "\\dfrac{1}{2}\nx" :=
  ⟨fun _ => ⟨rfl, rfl, rfl, rfl, rfl, rfl, rfl⟩, countNL_normText,
    by decide, by decide, by decide⟩

/-- Claim C3, counterexample: uploadBulkData itself rejects neither an empty
module list nor an empty title. Called with no modules and an empty title
against an accepting store it issues a test-record insert, a store write, and
returns success. -/
theorem claim_C3_cex :
    (uploadBulkData okStore [] "" "").writes
        = [WriteOp.insertTest { title := "", description := some "", is_full_test := some false }] ∧
    (uploadBulkData okStore [] "" "").result = .ok ⟨"TID1", 0⟩ := by
  constructor <;> decide

/-- Claim C3, amended: the rejection lives in the page-level handleUpload
guard, which returns an error and issues no store write when the trimmed
title is empty or the file list is empty, and only otherwise invokes
uploadBulkData. -/
theorem claim_C3 (s : Store) (testTitle testDescription : String)
    (files : List FileWithModule)
    (h : jsTrim testTitle = "" ∨ files = []) :
    (handleUpload s testTitle testDescription files).writes = [] ∧
    (handleUpload s testTitle testDescription files).result
      = .error (if jsTrim testTitle == "" then "Please enter a test title"
                else "Please upload at least one file") := by
  unfold handleUpload
  rcases h with h | h
  · simp [h]
  · by_cases ht : jsTrim testTitle = ""
    · simp [ht]
    · simp [ht, h]

/-- Witness for claim C3: a whitespace-only title and no files. -/
theorem claim_C3_witness :
    (handleUpload okStore " " "d" []).writes = [] ∧
    (handleUpload okStore " " "d" []).result = .error "Please enter a test title" := by
  have h := claim_C3 okStore " " "d" [] (Or.inl (by decide))
  exact ⟨h.1, h.2⟩

/-- Claim C7: a file with zero data rows, or whose headers contain no
normalized match of questionid or referenceid, is rejected with the
diagnostic listing the detected headers; the per-row loop skips exactly the
rows whose resolved identifier is empty or whitespace-only and counts them;
and when no valid row remains the file is rejected with the diagnostic
listing the detected headers and the skip count. The parser issues no store
write: its embedding does not touch the store oracle at all. -/
theorem claim_C7 :
    parseExcelRows [] = .error emptyFileMsg ∧
    (∀ jsonData : List Row, jsonData ≠ [] →
      hasRequiredHeader (headersOf jsonData) = false →
      parseExcelRows jsonData = .error (missingHeaderMsg (headersOf jsonData))) ∧
    (∀ rows : List Row, parseLoop rows
        = ((rows.filter (fun r => !skipCheck r)).map parseRow,
           (rows.filter skipCheck).length)) ∧
    (∀ jsonData : List Row, jsonData ≠ [] →
      hasRequiredHeader (headersOf jsonData) = true →
      (parseLoop jsonData).1 = [] →
      parseExcelRows jsonData
        = .error (noValidMsg (headersOf jsonData) (parseLoop jsonData).2)) := by
  refine ⟨rfl, ?_, parseLoop_eq, ?_⟩
  · intro jsonData hne hhdr
    unfold parseExcelRows
    rw [if_neg (by simpa [List.length_eq_zero] using hne)]
    simp [hhdr]
  · intro jsonData hne hhdr hempty
    unfold parseExcelRows
    rw [if_neg (by simpa [List.length_eq_zero] using hne)]
    simp [hhdr, hempty]

/-- Witness for claim C7: a file with a wrong header, and a file whose only
row has a whitespace-only identifier. -/
theorem claim_C7_witness :
    parseExcelRows [[("foo", "1")]] = .error (missingHeaderMsg ["foo"]) ∧
    parseExcelRows [[("question_id", " ")]] = .error (noValidMsg ["question_id"] 1) := by
  constructor
  · exact claim_C7.2.1 [[("foo", "1")]] (by decide) (by decide)
  · exact claim_C7.2.2.2 [[("question_id", " ")]] (by decide) (by decide) (by decide)

/-- Claim C8: updateTestSections issues an update, setting both math flags
true, for exactly the input modules numbered 3 or 4; and the whole
orchestrator run, its writes, events and result alike, is unchanged under an
arbitrary replacement of the section-update responses of the store, so a
section-update error never surfaces and never aborts the sequence. -/
theorem claim_C8 :
    (∀ (s : Store) (moduleNumbers : List Nat),
      (updateTestSections s moduleNumbers).1 = secOps moduleNumbers) ∧
    (∀ (s : Store) (f : Nat → String → Option String) (modules : List ModuleData)
        (testTitle testDescription : String),
      uploadBulkData { s with updateSectionR := f } modules testTitle testDescription
        = uploadBulkData s modules testTitle testDescription) :=
  ⟨updateTestSections_writes, uploadBulkData_updSec⟩

/-- On a fully accepting store the linking rows inserted by uploadBulkData
are exactly the rows built from the sliced identifier groups. -/
theorem linkedRows_bulk_ok (s : Store) (idf : Nat → String) (tid : String)
    (modules : List ModuleData) (testTitle testDescription : String)
    (hq : ∀ j q, s.insertQuestionR j q = .ok (some (idf j)))
    (ht : ∀ t, s.insertTestR t = .ok (some tid))
    (hl : ∀ j tq, s.insertTestQuestionR j tq = none) :
    linkedRows (uploadBulkData s modules testTitle testDescription).writes
      = buildTestQuestions tid
          (sliceIds modules ((List.range' 0 (allQuestionsOf modules).length).map idf)) 1 := by
  rw [uploadBulkData_ok_writes s idf tid modules testTitle testDescription hq ht hl]
  rw [linkedRows_append]
  simp [linkedRows, linkedRows_append, linkedRows_map_insertQuestion, linkedRows_secOps,
    linkedRows_map_insertTestQuestion]

/-- Claim C1: on a successful run the persisted TestQuestion rows carry
order_in_test values 1, 2, ..., N from a single counter incremented once per
question across the whole test and never reset between modules, visiting the
modules in input order, which the ascending module-number hypothesis, always
supplied by the page caller, identifies with ascending module-number order,
and within each module in the original question order. -/
theorem claim_C1 (s : Store) (idf : Nat → String) (tid : String)
    (modules : List ModuleData) (testTitle testDescription : String)
    (hq : ∀ j q, s.insertQuestionR j q = .ok (some (idf j)))
    (ht : ∀ t, s.insertTestR t = .ok (some tid))
    (hl : ∀ j tq, s.insertTestQuestionR j tq = none)
    (_hasc : (modules.map (fun m => m.moduleNumber)).Pairwise (fun a b => a < b)) :
    (uploadBulkData s modules testTitle testDescription).result
        = .ok ⟨tid, (allQuestionsOf modules).length⟩ ∧
    (linkedRows (uploadBulkData s modules testTitle testDescription).writes).map
        (fun tq => tq.order_in_test)
      = List.range' 1 (allQuestionsOf modules).length ∧
    (linkedRows (uploadBulkData s modules testTitle testDescription).writes).map
        (fun tq => tq.test_section_id)
      = (modules.map (fun m =>
          List.replicate m.questions.length
            ("TESTSECTION" ++ toString m.moduleNumber))).flatten := by
  have hlen : ((List.range' 0 (allQuestionsOf modules).length).map idf).length
      = (modules.map (fun m => m.questions.length)).sum := by
    simp [allQuestionsOf_length]
  have hlr := linkedRows_bulk_ok s idf tid modules testTitle testDescription hq ht hl
  refine ⟨uploadBulkData_ok_result s idf tid modules testTitle testDescription hq ht hl, ?_, ?_⟩
  · rw [hlr, build_slice_order tid modules _ 1 hlen]
    simp
  · rw [hlr, build_slice_sid tid modules _ 1 hlen]

/-- Witness for claim C1: modules 1 and 3 with two and one questions give
order_in_test 1, 2, 3 across modules. -/
theorem claim_C1_witness :
    (uploadBulkData okStore exModules "T" "D").result = .ok ⟨"TID1", 3⟩ ∧
    (linkedRows (uploadBulkData okStore exModules "T" "D").writes).map
        (fun tq => tq.order_in_test) = [1, 2, 3] ∧
    (linkedRows (uploadBulkData okStore exModules "T" "D").writes).map
        (fun tq => tq.test_section_id)
      = ["TESTSECTION1", "TESTSECTION1", "TESTSECTION3"] := by
  have h := claim_C1 okStore exIdf "TID1" exModules "T" "D"
    (fun j q => rfl) (fun t => rfl) (fun j tq => rfl) (by decide)
  exact ⟨h.1, h.2.1, h.2.2⟩

/-- Claim C5: the identifiers returned by the questions phase are partitioned
back into per-module groups by slicing the flat list with each module
question count, in insertion order: on a successful run the j-th linking row
overall references exactly the j-th returned identifier, and the rows fall
into the per-module groups given by the module question counts, so no row
references an identifier of a different module. -/
theorem claim_C5 (s : Store) (idf : Nat → String) (tid : String)
    (modules : List ModuleData) (testTitle testDescription : String)
    (hq : ∀ j q, s.insertQuestionR j q = .ok (some (idf j)))
    (ht : ∀ t, s.insertTestR t = .ok (some tid))
    (hl : ∀ j tq, s.insertTestQuestionR j tq = none) :
    (uploadQuestions s (allQuestionsOf modules)).result
        = .ok ((List.range' 0 (allQuestionsOf modules).length).map idf) ∧
    (linkedRows (uploadBulkData s modules testTitle testDescription).writes).map
        (fun tq => tq.question_id)
      = (List.range' 0 (allQuestionsOf modules).length).map idf ∧
    (linkedRows (uploadBulkData s modules testTitle testDescription).writes).map
        (fun tq => tq.test_section_id)
      = (modules.map (fun m =>
          List.replicate m.questions.length
            ("TESTSECTION" ++ toString m.moduleNumber))).flatten := by
  have hlen : ((List.range' 0 (allQuestionsOf modules).length).map idf).length
      = (modules.map (fun m => m.questions.length)).sum := by
    simp [allQuestionsOf_length]
  have hlr := linkedRows_bulk_ok s idf tid modules testTitle testDescription hq ht hl
  refine ⟨uploadQuestionsGo_ok_result s idf hq _ _ 0, ?_, ?_⟩
  · rw [hlr, build_slice_qid tid modules _ 1 hlen]
  · rw [hlr, build_slice_sid tid modules _ 1 hlen]

/-- Witness for claim C5: the three returned identifiers are paired to the
linking rows in order, two in section 1 and one in section 3. -/
theorem claim_C5_witness :
    (uploadQuestions okStore (allQuestionsOf exModules)).result
        = .ok ["QID1", "QID2", "QID3"] ∧
    (linkedRows (uploadBulkData okStore exModules "T" "D").writes).map
        (fun tq => tq.question_id) = ["QID1", "QID2", "QID3"] ∧
    (linkedRows (uploadBulkData okStore exModules "T" "D").writes).map
        (fun tq => tq.test_section_id)
      = ["TESTSECTION1", "TESTSECTION1", "TESTSECTION3"] := by
  have h := claim_C5 okStore exIdf "TID1" exModules "T" "D"
    (fun j q => rfl) (fun t => rfl) (fun j tq => rfl)
  exact ⟨h.1, h.2.1, h.2.2⟩

/-- Claim C2: when the store rejects the i-th question insert (1-based
position i + 1 here since i is 0-based), the orchestrator aborts at once: the
trace holds exactly the first i + 1 question inserts, no test record and no
linking row, and the propagated error names the 1-based position in the
questions phase; when the store rejects the j-th linking insert, the
orchestrator aborts the linking phase at once, exactly j + 1 linking inserts
were issued and nothing after the failing one, and the propagated error names
the 1-based position in the linking phase. No compensating delete exists:
the write vocabulary of the embedding has no delete at all. -/
theorem claim_C2 (s₁ s₂ : Store) (modules : List ModuleData)
    (testTitle testDescription : String) (i j : Nat) (m₁ m₂ : String)
    (idf : Nat → String) (tid : String)
    (hi : i < (allQuestionsOf modules).length)
    (hpre₁ : ∀ k, k < i → ∀ q, ∃ v, s₁.insertQuestionR k q = Except.ok v)
    (herr₁ : ∀ q, s₁.insertQuestionR i q = .error m₁)
    (hq₂ : ∀ k q, s₂.insertQuestionR k q = .ok (some (idf k)))
    (ht₂ : ∀ t, s₂.insertTestR t = .ok (some tid))
    (hj : j < (allQuestionsOf modules).length)
    (hpre₂ : ∀ k, k < j → ∀ tq, s₂.insertTestQuestionR k tq = none)
    (herr₂ : ∀ tq, s₂.insertTestQuestionR j tq = some m₂) :
    ((uploadBulkData s₁ modules testTitle testDescription).result
        = .error ("Failed to upload question " ++ toString (i + 1) ++ ": " ++ m₁) ∧
     (uploadBulkData s₁ modules testTitle testDescription).writes
        = ((allQuestionsOf modules).take (i + 1)).map WriteOp.insertQuestion ∧
     insertedTests (uploadBulkData s₁ modules testTitle testDescription).writes = [] ∧
     linkedRows (uploadBulkData s₁ modules testTitle testDescription).writes = []) ∧
    ((uploadBulkData s₂ modules testTitle testDescription).result
        = .error ("Failed to link question " ++ toString (j + 1) ++ ": " ++ m₂) ∧
     (uploadBulkData s₂ modules testTitle testDescription).writes
        = (allQuestionsOf modules).map WriteOp.insertQuestion
          ++ WriteOp.insertTest (testOf modules testTitle testDescription)
            :: (secOps (modules.map (fun m => m.moduleNumber))
              ++ ((buildTestQuestions tid
                  (sliceIds modules
                    ((List.range' 0 (allQuestionsOf modules).length).map idf)) 1).take
                    (j + 1)).map
                WriteOp.insertTestQuestion) ∧
     (linkedRows (uploadBulkData s₂ modules testTitle testDescription).writes).length
        = j + 1) := by
  have hA := uploadBulkData_failQ s₁ modules testTitle testDescription i m₁ hi hpre₁ herr₁
  have hB := uploadBulkData_failLink s₂ idf tid modules testTitle testDescription j m₂
    hq₂ ht₂ hj hpre₂ herr₂
  refine ⟨⟨hA.1, hA.2, ?_, ?_⟩, hB.1, hB.2, ?_⟩
  · rw [hA.2, insertedTests_map_insertQuestion]
  · rw [hA.2, linkedRows_map_insertQuestion]
  · rw [hB.2, linkedRows_append]
    simp only [linkedRows, linkedRows_append, linkedRows_map_insertQuestion, linkedRows_secOps,
      linkedRows_map_insertTestQuestion, List.nil_append, List.length_nil]
    rw [List.length_take,
      buildTestQuestions_slice_length tid modules _ (by simp [allQuestionsOf_length])]
    simp only [List.length_map, List.length_range']
    omega

/-- Witness for claim C2: a store rejecting the second question insert and a
store rejecting the second linking insert, on two modules holding three
questions. -/
theorem claim_C2_witness :
    (uploadBulkData failQ2Store exModules "T" "D").result
        = .error "Failed to upload question 2: db down" ∧
    linkedRows (uploadBulkData failQ2Store exModules "T" "D").writes = [] ∧
    insertedTests (uploadBulkData failQ2Store exModules "T" "D").writes = [] ∧
    (uploadBulkData failLink2Store exModules "T" "D").result
        = .error "Failed to link question 2: db down" ∧
    (linkedRows (uploadBulkData failLink2Store exModules "T" "D").writes).length = 2 := by
  have h := claim_C2 failQ2Store failLink2Store exModules "T" "D" 1 1 "db down" "db down"
    exIdf "TID1"
    (by decide)
    (fun k hk q => by
      have hk0 := Nat.lt_one_iff.mp hk
      subst hk0
      exact ⟨some "QID1", rfl⟩)
    (fun q => rfl)
    (fun k q => rfl)
    (fun t => rfl)
    (by decide)
    (fun k hk tq => by
      have hk0 := Nat.lt_one_iff.mp hk
      subst hk0
      rfl)
    (fun tq => rfl)
  exact ⟨h.1.1, h.1.2.2.2, h.1.2.2.1, h.2.1, h.2.2.2⟩

end BulkUpload
